import Mathlib

/-!
Verification development for the qtrlb measurement post-processing pipeline.

The Python sources `qtrlb/config/process_manager.py` and
`qtrlb/config/variable_manager.py` are shallowly embedded below.  Pure numeric
code becomes Lean functions over exact rational arithmetic; the in-place
mutation of the per-channel measurement dictionaries becomes explicit state
passing; a Python exception becomes an `Option PyErr` (for `process_data`,
whose partially mutated state survives the raise) or an `Except PyErr`
result (for helpers).  Machine floats are modelled by `ℚ`; numpy integer
arrays by `ℤ`/`ℕ` valued functions and lists.

Helpers imported from `qtrlb.processing.processing` (`rotate_IQ`,
`gmm_predict`, `normalize_population`, `autorotate_IQ`) are not part of the
supplied sources; they are modelled from the specification and marked
`Modelled from the spec:` in their doc comments.  `np.linalg.solve` is
modelled from numpy's documented contract.
-/

namespace Qtrlb

/-- Models the kinds of Python exceptions the embedded code can raise. -/
inductive PyErr where
  | typeError
  | keyError
  | attributeError
  | linAlgError
  | valueError
  | indexError
  deriving DecidableEq, Repr

/-! ## The truncation loop of `ProcessManager.heralding_test` (lines 153-161)

The numpy mask has shape `(n_reps, x_points)` and the loop works on one
column (one `x_point`) at a time, so a column is represented as a
`List ℤ` indexed by repetition, and the mask as the list of its columns. -/

/-- Embeds `np.sum(heralding_mask[:, i] == 0)`: the number of passing
(zero) entries of one column. -/
def countPass (col : List ℤ) : ℕ := col.countP (fun x => x == 0)

/-- Embeds the numpy slice assignment `heralding_mask[j : j + n_short, i] = -1`
on one column: entries at positions `j, …, j + n - 1` are overwritten with the
sentinel `-1` (out-of-range positions are clipped, as in numpy). -/
def overwriteNeg (col : List ℤ) (j n : ℕ) : List ℤ :=
  col.take j ++ List.replicate (min n (col.length - j)) (-1) ++ col.drop (j + n)

/-- Embeds the `while np.sum(heralding_mask[:, i] == 0) > n_pass_min` loop of
`heralding_test` (lines 156-160) on one column: while more than `m` entries
pass, overwrite the block of `n_short = passing - m` entries starting at the
running index `j` with `-1` and advance `j` by `n_short`.  The loop is given
explicit fuel; `truncLoop_prefix` shows `col.length` fuel always suffices. -/
def truncLoop (m : ℕ) : ℕ → List ℤ → ℕ → List ℤ
  | 0, col, _ => col
  | fuel+1, col, j =>
    if m < countPass col then
      truncLoop m fuel (overwriteNeg col j (countPass col - m)) (j + (countPass col - m))
    else col

/-- Embeds one iteration of the `for i in range(heralding_mask.shape[1])` loop
of `heralding_test`: the truncation of a single column, starting at `j = 0`. -/
def truncColumn (m : ℕ) (col : List ℤ) : List ℤ := truncLoop m col.length col 0

/-- Embeds `n_pass_min = np.min(np.sum(heralding_mask == 0, axis=0))` for a
mask given as its list of columns (`np.min` of an empty array raises; the
`getD 0` default is never used by the theorems below, which supply nonempty
masks). -/
def nPassMinVal (cols : List (List ℤ)) : ℕ := ((cols.map countPass).min?).getD 0

lemma countPass_append (a b : List ℤ) : countPass (a ++ b) = countPass a + countPass b :=
  List.countP_append _ _ _

lemma countPass_replicateNeg (n : ℕ) : countPass (List.replicate n (-1)) = 0 := by
  apply List.countP_eq_zero.mpr
  intro a ha
  rw [List.eq_of_mem_replicate ha]
  decide

lemma countPass_le_length (l : List ℤ) : countPass l ≤ l.length :=
  List.countP_le_length _

lemma countPass_take_le (n : ℕ) (l : List ℤ) : countPass (l.take n) ≤ n := by
  have h := countPass_le_length (l.take n)
  rw [List.length_take] at h
  exact h.trans (min_le_left _ _)

lemma countPass_take_add_drop (n : ℕ) (l : List ℤ) :
    countPass (l.take n) + countPass (l.drop n) = countPass l := by
  rw [← countPass_append, List.take_append_drop]

lemma overwriteNeg_replicate_append (j n : ℕ) (t : List ℤ) (hn : n ≤ t.length) :
    overwriteNeg (List.replicate j (-1) ++ t) j n = List.replicate (j + n) (-1) ++ t.drop n := by
  unfold overwriteNeg
  rw [List.take_left' (List.length_replicate _ _)]
  have hdrop : List.drop ((List.replicate j (-1 : ℤ)).length + n) (List.replicate j (-1 : ℤ) ++ t)
      = List.drop n t := List.drop_append n
  rw [List.length_replicate] at hdrop
  rw [hdrop]
  have hlen : (List.replicate j (-1 : ℤ) ++ t).length - j = t.length := by simp
  rw [hlen, min_eq_left hn, List.replicate_add, List.append_assoc]

lemma truncLoop_prefix (m : ℕ) :
    ∀ (fuel : ℕ) (t : List ℤ) (j : ℕ), m ≤ countPass t → t.length ≤ fuel →
    ∃ k, k ≤ t.length ∧
      truncLoop m fuel (List.replicate j (-1) ++ t) j =
        List.replicate j (-1) ++ (List.replicate k (-1) ++ t.drop k) ∧
      countPass (t.drop k) = m
  | 0, t, j, hm, hlen => by
    have ht : t = [] := List.eq_nil_of_length_eq_zero (Nat.le_zero.mp hlen)
    subst ht
    refine ⟨0, Nat.le_refl 0, by simp [truncLoop], ?_⟩
    have hc : countPass ([] : List ℤ) = 0 := rfl
    simp only [List.drop_nil, hc]
    omega
  | fuel+1, t, j, hm, hlen => by
    have hcol : countPass (List.replicate j (-1) ++ t) = countPass t := by
      rw [countPass_append, countPass_replicateNeg, Nat.zero_add]
    by_cases hc : m < countPass t
    · have hnle : countPass t - m ≤ t.length :=
        le_trans (Nat.sub_le _ _) (countPass_le_length t)
      have hstep : truncLoop m (fuel+1) (List.replicate j (-1) ++ t) j =
          truncLoop m fuel
            (List.replicate (j + (countPass t - m)) (-1) ++ t.drop (countPass t - m))
            (j + (countPass t - m)) := by
        simp only [truncLoop, hcol, if_pos hc]
        rw [overwriteNeg_replicate_append j (countPass t - m) t hnle]
      have hm' : m ≤ countPass (t.drop (countPass t - m)) := by
        have h1 := countPass_take_add_drop (countPass t - m) t
        have h2 := countPass_take_le (countPass t - m) t
        omega
      have hlen' : (t.drop (countPass t - m)).length ≤ fuel := by
        rw [List.length_drop]
        omega
      obtain ⟨k', hk'le, heq, hcp⟩ :=
        truncLoop_prefix m fuel (t.drop (countPass t - m)) (j + (countPass t - m)) hm' hlen'
      rw [List.length_drop] at hk'le
      refine ⟨(countPass t - m) + k', by omega, ?_, ?_⟩
      · rw [hstep, heq, List.drop_drop, List.replicate_add j (countPass t - m) (-1),
          List.replicate_add (countPass t - m) k' (-1)]
        simp only [List.append_assoc]
      · rw [← List.drop_drop]
        exact hcp
    · have hceq : countPass t = m := le_antisymm (Nat.not_lt.mp hc) hm
      refine ⟨0, Nat.zero_le _, ?_, ?_⟩
      · simp only [truncLoop, hcol, if_neg hc]
        simp
      · simpa using hceq

/-- Claim C1 (amended).  For every sweep-point column of the combined heralding
mask whose passing count exceeds `n_pass_min`, the truncation step rewrites a
contiguous prefix of `k` rows of the column to the sentinel `-1` and leaves the
remaining rows unchanged, where the prefix holds exactly the
`(passing_count − n_pass_min)` lowest-indexed passing entries of the column —
together with every herald-failed (nonzero) entry among those first `k` rows,
which is overwritten to the sentinel as well, not left unchanged — so that the
column ends with exactly `n_pass_min` passing entries.  In the scenario with
repetitions=10 and two columns with 8 and 6 passing shots, rows 0-1 of column 0
are the truncated passes only when both are in fact passing shots. -/
theorem C1_truncation_amended (cols : List (List ℤ)) (col : List ℤ)
    (hmem : col ∈ cols) (hex : nPassMinVal cols < countPass col) :
    ∃ k, k ≤ col.length ∧
      truncColumn (nPassMinVal cols) col = List.replicate k (-1) ++ col.drop k ∧
      countPass (col.drop k) = nPassMinVal cols ∧
      countPass (col.take k) = countPass col - nPassMinVal cols := by
  obtain ⟨k, hk, heq, hcp⟩ :=
    truncLoop_prefix (nPassMinVal cols) col.length col 0 (le_of_lt hex) le_rfl
  refine ⟨k, hk, ?_, hcp, ?_⟩
  · simpa [truncColumn] using heq
  · have h := countPass_take_add_drop k col
    omega

/-- C1 scenario input: the combined mask column of a 10-repetition experiment
whose two herald failures sit at repetitions 0 and 1 (8 passing shots). -/
def col0ex : List ℤ := [1, 1, 0, 0, 0, 0, 0, 0, 0, 0]

/-- C1 scenario input: the second column, with 6 passing shots. -/
def col1ex : List ℤ := [0, 0, 0, 0, 0, 0, 1, 1, 1, 1]

/-- C1 scenario input: the combined 10 x 2 mask, as its list of columns. -/
def colsEx : List (List ℤ) := [col0ex, col1ex]

/-- Witness for `C1_truncation_amended` at the concrete 10 x 2 scenario mask. -/
theorem C1_truncation_amended_witness :
    col0ex ∈ colsEx ∧ nPassMinVal colsEx < countPass col0ex ∧
    (∃ k, k ≤ col0ex.length ∧
      truncColumn (nPassMinVal colsEx) col0ex = List.replicate k (-1) ++ col0ex.drop k ∧
      countPass (col0ex.drop k) = nPassMinVal colsEx ∧
      countPass (col0ex.take k) = countPass col0ex - nPassMinVal colsEx) :=
  ⟨by decide, by decide, C1_truncation_amended colsEx col0ex (by decide) (by decide)⟩

/-- Counterexample to claim C1 as stated: with repetitions=10 and two
sweep-point columns where column 0 has 8 passing shots (herald failures at
rows 0 and 1) and column 1 has 6, `n_pass_min = 6`, but the truncation step
overwrites rows 0-3 of column 0: four entries instead of
`passing_count − n_pass_min = 2`, among them the two herald-failed rows 0-1 —
so the overwritten entries are not all currently-passing, herald-failed
entries are not left unchanged, and the sentinelled rows are not the two
lowest-indexed passes. -/
theorem C1_truncation_counterexample :
    nPassMinVal colsEx = 6 ∧ countPass col0ex = 8 ∧ countPass col1ex = 6 ∧
    truncColumn 6 col0ex = [-1, -1, -1, -1, 0, 0, 0, 0, 0, 0] ∧
    ¬ (∀ i : ℕ, i < 10 → col0ex.getD i 0 ≠ 0 →
        (truncColumn 6 col0ex).getD i 0 = col0ex.getD i 0) ∧
    ((List.range 10).filter
        (fun i => (truncColumn 6 col0ex).getD i 0 != col0ex.getD i 0)).length ≠ 8 - 6 := by
  decide

/-! ## Data model for `ProcessManager.process_data`

A measurement batch maps channel identifiers (resonator names) to mutable
per-channel data dictionaries of common shape `repetitions x sweep-points`
(`R x P`).  Python dicts preserve insertion order, so a batch is a list of
key-value pairs; the raw keys are always present, each derived key is an
`Option` that starts out absent. -/

/-- Shape-`(R, P)` array of complex IQ samples, a complex number being a pair
of exact rationals (real part, imaginary part). -/
abbrev IQArray (R P : ℕ) := Fin R → Fin P → ℚ × ℚ

/-- Shape-`(R, P)` array of integer classification labels (indices into the
channel's readout-level list). -/
abbrev LabelArray (R P : ℕ) := Fin R → Fin P → ℕ

/-- Shape-`(R, P)` integer heralding mask (0 = pass, positive = herald-failed,
-1 = truncated). -/
abbrev MaskArray (R P : ℕ) := Fin R → Fin P → ℤ

/-- Value stored under the `to_fit` key: a corrected population table (rows =
levels, columns = sweep points, stored row-major like a numpy array) in the
heralding/classification routines, an averaged IQ trace in the bare routine. -/
inductive ToFit (R P : ℕ) where
  | pop (x : List (List ℚ))
  | iqavg (x : Fin R → ℚ × ℚ)
  deriving DecidableEq

/-- A population table as stored in the channel dict: a numpy 2-D float array
is represented untyped as its list of rows (the level count varies per
channel, so no fixed `Fin`-shape fits every channel). -/
def matRows {n P : ℕ} (M : Matrix (Fin n) (Fin P) ℚ) : List (List ℚ) :=
  List.ofFn fun i => List.ofFn fun j => M i j

/-- One per-channel data dictionary.  Field names mirror the Python dict keys;
raw heterodyned data are required, derived keys start as `none`. -/
structure ChannelData (R P : ℕ) where
  Heterodyned_readout : IQArray R P
  Heterodyned_heralding : IQArray R P
  IQrotated_readout : Option (IQArray R P)
  IQrotated_heralding : Option (IQArray R P)
  GMMpredicted_readout : Option (LabelArray R P)
  GMMpredicted_heralding : Option (LabelArray R P)
  Mask_heralding : Option (MaskArray R P)
  PopulationNormalized_readout : Option (List (List ℚ))
  PopulationCorrected_readout : Option (List (List ℚ))
  IQautorotated_readout : Option (IQArray R P)
  IQaveraged_readout : Option (Fin R → ℚ × ℚ)
  to_fit : Option (ToFit R P)

/-- A measurement batch: channel identifier to per-channel dictionary, in
insertion order. -/
abbrev Measurement (R P : ℕ) := List (String × ChannelData R P)

/-- The per-resonator configuration entries of `process.yaml` that
`process_data` reads.  `IQ_rotation_phasor` stands for the unit complex number
`exp(-i * IQ_rotation_angle)` (the embedding works in exact arithmetic, so the
phasor is supplied directly rather than the angle). -/
structure ResCfg where
  n_readout_levels : ℕ
  IQ_rotation_phasor : ℚ × ℚ
  IQ_means : Fin n_readout_levels → ℚ × ℚ
  IQ_covariances : Fin n_readout_levels → ℚ
  corr_matrix : Matrix (Fin n_readout_levels) (Fin n_readout_levels) ℚ

/-- The `ProcessManager` state visible to `process_data`: the three routine
flags of `process.yaml`, the per-resonator configuration, and the
`self.measurement` attribute (`none` when it was never assigned). -/
structure PMState (R P : ℕ) where
  customized : Bool
  heralding : Bool
  classification : Bool
  cfg : String → ResCfg
  measurement : Option (Measurement R P)

/-! ## Processing helpers

`rotate_IQ`, `gmm_predict`, `normalize_population` and `autorotate_IQ` live in
`qtrlb/processing/processing.py`, which is not among the supplied sources, so
they are modelled from the specification.  `np.linalg.solve` is numpy and is
modelled from its documented contract. -/

/-- Modelled from the spec: `rotate_IQ(data, angle)` returns
`data * exp(-i*angle)` elementwise (spec 4.1), shape preserved.  The unit
complex `exp(-i*angle)` is the pair `w`; the product is ordinary complex
multiplication on (real, imaginary) pairs. -/
def rotate_IQ {R P : ℕ} (data : IQArray R P) (w : ℚ × ℚ) : IQArray R P :=
  fun r p =>
    ((data r p).1 * w.1 - (data r p).2 * w.2,
     (data r p).1 * w.2 + (data r p).2 * w.1)

/-- Squared Euclidean distance between two IQ points. -/
def dist2 (a b : ℚ × ℚ) : ℚ := (a.1 - b.1)^2 + (a.2 - b.2)^2

/-- Modelled from the spec: `gmm_predict` assigns each sample the index of the
nearest cluster mean (spec 4.2: Gaussian decision rule, which for isotropic
equal-variance clusters is the nearest-Euclidean-distance rule; ties broken by
lowest index).  The `covariances` argument is kept for signature fidelity; the
modelled rule is the equal-variance case, the only one the spec pins down.
Labels are the indices `0..K-1` into the level list. -/
def gmm_predict {R P K : ℕ} (data : IQArray R P) (means : Fin K → ℚ × ℚ)
    (covariances : Fin K → ℚ) : LabelArray R P :=
  fun r p =>
    ((List.finRange K).foldl (fun best k =>
      match best with
      | none => some k
      | some b => if dist2 (data r p) (means k) < dist2 (data r p) (means b)
                  then some k else some b) none).elim 0 Fin.val

/-- Modelled from the spec: `normalize_population` (spec 4.5).  For each
sweep-point column, count the shots carrying each level among the shots not
excluded by the mask (mask value 0 counts; no mask counts every shot) and
divide by the number of counted shots in that column. -/
def normalize_population {R P : ℕ} (labels : LabelArray R P) (n_levels : ℕ)
    (mask : Option (MaskArray R P)) : Matrix (Fin n_levels) (Fin P) ℚ :=
  Matrix.of fun i j =>
    let counted := Finset.univ.filter fun r : Fin R =>
      (match mask with | none => true | some mk => mk r j == 0) = true
    ((counted.filter fun r => labels r j = (i : ℕ)).card : ℚ) / (counted.card : ℚ)

/-- Modelled from the spec: `autorotate_IQ` (spec 4.3) applies a further
data-driven rotation obtained from a deterministic mixture fit.  The spec
leaves the fitting rule open (any correctness-preserving maximum-likelihood
fit), and no claim below depends on the fitted angle, so the fitted rotation
is modelled as the identity phasor. -/
def autorotate_IQ {R P : ℕ} (data : IQArray R P) (n_components : ℕ) : IQArray R P :=
  rotate_IQ data (1, 0)

/-- Embeds `np.mean(..., axis=1)` on an `(R, P)` complex array: the mean over
the sweep-point axis. -/
def mean_axis1 {R P : ℕ} (data : IQArray R P) : Fin R → ℚ × ℚ :=
  fun r => ((∑ p, (data r p).1) / (P : ℚ), (∑ p, (data r p).2) / (P : ℚ))

/-- Executable determinant by Laplace expansion along the first column;
`detExec_eq_det` identifies it with Mathlib's `Matrix.det` (whose definition
does not reduce in the kernel). -/
def detExec : {n : ℕ} → Matrix (Fin n) (Fin n) ℚ → ℚ
  | 0, _ => 1
  | n+1, M => ∑ i : Fin (n+1),
      (-1 : ℚ)^(i : ℕ) * M i 0 * detExec (M.submatrix i.succAbove Fin.succ)

theorem detExec_eq_det : ∀ {n : ℕ} (M : Matrix (Fin n) (Fin n) ℚ), detExec M = M.det
  | 0, M => by simp [detExec, Matrix.det_fin_zero]
  | n+1, M => by
    rw [Matrix.det_succ_column_zero, detExec]
    refine Finset.sum_congr rfl fun i _ => ?_
    rw [detExec_eq_det]

/-- Executable adjugate (via `detExec`); `adjExec_eq_adjugate` identifies it
with Mathlib's `Matrix.adjugate`. -/
def adjExec {n : ℕ} (A : Matrix (Fin n) (Fin n) ℚ) : Matrix (Fin n) (Fin n) ℚ :=
  Matrix.of fun i j => detExec (A.updateRow j (Pi.single i 1))

theorem adjExec_eq_adjugate {n : ℕ} (A : Matrix (Fin n) (Fin n) ℚ) :
    adjExec A = A.adjugate := by
  ext i j
  rw [Matrix.adjugate_apply, adjExec, Matrix.of_apply, detExec_eq_det]

/-- Models `np.linalg.solve(A, B)` by its documented contract: for square `A`
and a right-hand side with one column per sweep point, return the exact
solution `X` of `A * X = B`, raising `LinAlgError` when `A` is singular.  The
solution is computed by the adjugate formula; `np_linalg_solve_sound` shows it
solves the system. -/
def np_linalg_solve {n P : ℕ} (A : Matrix (Fin n) (Fin n) ℚ)
    (B : Matrix (Fin n) (Fin P) ℚ) : Except PyErr (Matrix (Fin n) (Fin P) ℚ) :=
  if detExec A = 0 then .error .linAlgError else .ok ((detExec A)⁻¹ • (adjExec A * B))

theorem np_linalg_solve_sound {n P : ℕ} {A : Matrix (Fin n) (Fin n) ℚ}
    {B X : Matrix (Fin n) (Fin P) ℚ} (h : np_linalg_solve A B = .ok X) :
    A * X = B := by
  unfold np_linalg_solve at h
  split at h
  · exact absurd h (by simp)
  · rename_i hd
    rw [detExec_eq_det] at hd
    cases h
    rw [detExec_eq_det, adjExec_eq_adjugate, Matrix.mul_smul, ← Matrix.mul_assoc,
      Matrix.mul_adjugate, Matrix.smul_mul, Matrix.one_mul, smul_smul,
      inv_mul_cancel₀ hd, one_smul]

theorem np_linalg_solve_error_iff {n P : ℕ} (A : Matrix (Fin n) (Fin n) ℚ)
    (B : Matrix (Fin n) (Fin P) ℚ) :
    (∃ e, np_linalg_solve A B = .error e) ↔ A.det = 0 := by
  unfold np_linalg_solve
  rw [← detExec_eq_det]
  split
  · rename_i h
    exact ⟨fun _ => h, fun _ => ⟨.linAlgError, rfl⟩⟩
  · rename_i h
    simp [h]

/-! ## `ProcessManager.heralding_test` (lines 135-162) -/

/-- Models Python-3 subscripting of the view returned by `dict.keys()`: a
`dict_keys` view object has no `__getitem__`, so `resonators[0]` raises
`TypeError: dict_keys object is not subscriptable` regardless of the dict's
contents.  (In the Python 2 code this was stolen from, `keys()` returned a
list and the subscript was legal.) -/
def pyKeysViewSubscript (keys : List String) (i : ℕ) : Except PyErr String :=
  .error .typeError

/-- Embeds `self.measurement[r]`: dict lookup by key, `KeyError` when absent. -/
def dictGet {R P : ℕ} (meas : Measurement R P) (r : String) :
    Except PyErr (ChannelData R P) :=
  match meas.find? (fun kv => kv.1 == r) with
  | some kv => .ok kv.2
  | none => .error .keyError

/-- Embeds reading a derived key (such as `GMMpredicted_heralding`) from a
per-channel dict: `KeyError` when the key has not been stored. -/
def getStored {α : Type} (o : Option α) : Except PyErr α :=
  o.elim (.error .keyError) .ok

/-- Embeds the numpy bitwise `|` on two mask entries; the operands are
nonnegative class labels (or previous or-results), so the two's-complement
subtleties of negative operands never arise. -/
def intLor (a b : ℤ) : ℤ := Int.ofNat (a.toNat ||| b.toNat)

/-- Ors one channel's heralding-label array into the running columnwise mask,
embedding `heralding_mask = heralding_mask | ...['GMMpredicted_heralding']`. -/
def orCols {R P : ℕ} (mk : List (List ℤ)) (g : LabelArray R P) : List (List ℤ) :=
  List.ofFn fun p : Fin P => List.ofFn fun r : Fin R =>
    intLor ((mk.getD p []).getD r 0) (Int.ofNat (g r p))

/-- Converts the columnwise mask back to the `(R, P)`-indexed array shape that
numpy stores, for the masked normalization of the second heralding loop. -/
def maskFnOfCols {R P : ℕ} (cols : List (List ℤ)) : MaskArray R P :=
  fun r p => (cols.getD p []).getD r 0

/-- Embeds `ProcessManager.heralding_test` (lines 147-162).  The first
expression evaluated, `resonators[0]`, subscripts the `dict.keys()` view and
raises `TypeError` (see `pyKeysViewSubscript`), so the rest of the body —
`np.zeros_like`, the bitwise-or combine over channels, `n_pass_min` as the
minimum per-column passing count (`np.min` of an empty array raises
`ValueError`), and the per-column truncation loop — is embedded faithfully but
is unreachable. -/
def heraldingTest {R P : ℕ} (meas : Measurement R P) : Except PyErr (List (List ℤ)) := do
  let resonators := meas.map Prod.fst
  let r0 ← pyKeysViewSubscript resonators 0
  let d0 ← dictGet meas r0
  let _g0 ← getStored d0.GMMpredicted_heralding
  let mask0 : List (List ℤ) := List.ofFn fun _ : Fin P => List.ofFn fun _ : Fin R => (0 : ℤ)
  let mask ← meas.foldlM (fun (mk : List (List ℤ)) kv => do
      let g ← getStored kv.2.GMMpredicted_heralding
      pure (orCols mk g)) mask0
  match (mask.map countPass).min? with
  | none => .error .valueError
  | some m => pure (mask.map (truncColumn m))

/-! ## `ProcessManager.process_data` (lines 58-132) -/

/-- Embeds the first per-channel loop of the heralding branch (lines 76-87):
rotate and classify both the readout and the heralding traces, storing the
four derived keys in the channel's dict. -/
def heraldChannelStep {R P : ℕ} (cfg : String → ResCfg) (r : String)
    (d : ChannelData R P) : ChannelData R P :=
  let c := cfg r
  let xr := rotate_IQ d.Heterodyned_readout c.IQ_rotation_phasor
  let xh := rotate_IQ d.Heterodyned_heralding c.IQ_rotation_phasor
  { d with
    IQrotated_readout := some xr,
    IQrotated_heralding := some xh,
    GMMpredicted_readout := some (gmm_predict xr c.IQ_means c.IQ_covariances),
    GMMpredicted_heralding := some (gmm_predict xh c.IQ_means c.IQ_covariances) }

/-- Embeds the second per-channel loop of the heralding branch (lines 91-101):
store the shared mask, normalize with the mask, solve against `corr_matrix`,
store the result and `to_fit`.  Unreachable in practice since
`heralding_test` always raises first; embedded for fidelity. -/
def heraldLoop2 {R P : ℕ} (cfg : String → ResCfg) (maskCols : List (List ℤ)) :
    Measurement R P → Measurement R P × Option PyErr
  | [] => ([], none)
  | (r, d) :: rest =>
    let c := cfg r
    let mfn : MaskArray R P := maskFnOfCols maskCols
    let d1 := { d with Mask_heralding := some mfn }
    match getStored d1.GMMpredicted_readout with
    | .error e => ((r, d1) :: rest, some e)
    | .ok g =>
      let B := normalize_population g c.n_readout_levels (some mfn)
      let d2 := { d1 with PopulationNormalized_readout := some (matRows B) }
      match np_linalg_solve c.corr_matrix B with
      | .error e => ((r, d2) :: rest, some e)
      | .ok X =>
        let d3 := { d2 with
          PopulationCorrected_readout := some (matRows X),
          to_fit := some (ToFit.pop (matRows X)) }
        let (rest', err) := heraldLoop2 cfg maskCols rest
        ((r, d3) :: rest', err)

/-- Embeds the heralding branch of `process_data` (lines 74-101): first loop,
then `heralding_test` across all channels, then the second loop.  An exception
escapes with whatever mutations already happened. -/
def heraldingRoutine {R P : ℕ} (cfg : String → ResCfg) (meas : Measurement R P) :
    Measurement R P × Option PyErr :=
  let meas1 := meas.map fun kv => (kv.1, heraldChannelStep cfg kv.1 kv.2)
  match heraldingTest meas1 with
  | .error e => (meas1, some e)
  | .ok mask => heraldLoop2 cfg mask meas1

/-- Embeds lines 106-111 of the classification branch: the rotated readout
trace of one channel. -/
def classifyRotated {R P : ℕ} (cfg : String → ResCfg) (r : String)
    (d : ChannelData R P) : IQArray R P :=
  rotate_IQ d.Heterodyned_readout (cfg r).IQ_rotation_phasor

/-- Embeds lines 109-111: the classified labels of one channel. -/
def classifyLabels {R P : ℕ} (cfg : String → ResCfg) (r : String)
    (d : ChannelData R P) : LabelArray R P :=
  gmm_predict (classifyRotated cfg r d) (cfg r).IQ_means (cfg r).IQ_covariances

/-- Embeds lines 113-114: the unmasked normalized population table of one
channel (`PopulationNormalized_readout`). -/
def classifyPops {R P : ℕ} (cfg : String → ResCfg) (r : String)
    (d : ChannelData R P) : Matrix (Fin ((cfg r).n_readout_levels)) (Fin P) ℚ :=
  normalize_population (classifyLabels cfg r d) (cfg r).n_readout_levels none

/-- The channel dict after the three stores of lines 106-114, before the
linear solve of line 116 runs. -/
def classifyStored {R P : ℕ} (cfg : String → ResCfg) (r : String)
    (d : ChannelData R P) : ChannelData R P :=
  { d with
    IQrotated_readout := some (classifyRotated cfg r d),
    GMMpredicted_readout := some (classifyLabels cfg r d),
    PopulationNormalized_readout := some (matRows (classifyPops cfg r d)) }

/-- Embeds the classification branch of `process_data` (lines 104-119):
per channel, rotate, classify, normalize (unmasked), solve `corr_matrix`
against the normalized populations (line 116, `np.linalg.solve`), store the
result and `to_fit`.  The first three stores land in the channel's dict
before the solve runs, so a `LinAlgError` leaves them behind and aborts the
loop; later channels are untouched. -/
def classificationLoop {R P : ℕ} (cfg : String → ResCfg) :
    Measurement R P → Measurement R P × Option PyErr
  | [] => ([], none)
  | (r, d) :: rest =>
    let d1 := classifyStored cfg r d
    match np_linalg_solve ((cfg r).corr_matrix) (classifyPops cfg r d) with
    | .error e => ((r, d1) :: rest, some e)
    | .ok X =>
      let d2 := { d1 with
        PopulationCorrected_readout := some (matRows X),
        to_fit := some (ToFit.pop (matRows X)) }
      let (rest', err) := classificationLoop cfg rest
      ((r, d2) :: rest', err)

/-- Embeds the per-channel body of the bare branch (lines 123-132): rotate,
autorotate, average over the sweep axis, store `to_fit`. -/
def bareChannelStep {R P : ℕ} (cfg : String → ResCfg) (r : String)
    (d : ChannelData R P) : ChannelData R P :=
  let c := cfg r
  let x := rotate_IQ d.Heterodyned_readout c.IQ_rotation_phasor
  let xa := autorotate_IQ x c.n_readout_levels
  let avg := mean_axis1 xa
  { d with
    IQrotated_readout := some x,
    IQautorotated_readout := some xa,
    IQaveraged_readout := some avg,
    to_fit := some (ToFit.iqavg avg) }

/-- Embeds the bare branch of `process_data` (lines 122-132). -/
def bareLoop {R P : ℕ} (cfg : String → ResCfg) (meas : Measurement R P) :
    Measurement R P :=
  meas.map fun kv => (kv.1, bareChannelStep cfg kv.1 kv.2)

/-- Embeds `ProcessManager.process_data` (lines 58-132).  The Python method
takes `measurement` and `fitmodel` parameters, but its body reads and mutates
only the attribute `self.measurement` (assigned elsewhere); reading an
attribute that was never assigned raises `AttributeError`.  The result is the
mutated manager state together with the exception that escaped, if any. -/
def processData {R P : ℕ} {α : Type} (pm : PMState R P) (measurement : Measurement R P)
    (fitmodel : α) : PMState R P × Option PyErr :=
  if pm.customized then
    (pm, none)
  else if pm.heralding then
    match pm.measurement with
    | none => (pm, some .attributeError)
    | some meas =>
      let (meas', err) := heraldingRoutine pm.cfg meas
      ({ pm with measurement := some meas' }, err)
  else if pm.classification then
    match pm.measurement with
    | none => (pm, some .attributeError)
    | some meas =>
      let (meas', err) := classificationLoop pm.cfg meas
      ({ pm with measurement := some meas' }, err)
  else
    match pm.measurement with
    | none => (pm, some .attributeError)
    | some meas =>
      ({ pm with measurement := some (bareLoop pm.cfg meas) }, none)

/-- The customized routine (lines 70-71): `pass`, touching nothing. -/
def runCustomized {R P : ℕ} (pm : PMState R P) : PMState R P × Option PyErr :=
  (pm, none)

/-- The heralding routine as invoked on the manager state. -/
def runHeralding {R P : ℕ} (pm : PMState R P) : PMState R P × Option PyErr :=
  match pm.measurement with
  | none => (pm, some .attributeError)
  | some meas =>
    let (meas', err) := heraldingRoutine pm.cfg meas
    ({ pm with measurement := some meas' }, err)

/-- The classification routine as invoked on the manager state. -/
def runClassification {R P : ℕ} (pm : PMState R P) : PMState R P × Option PyErr :=
  match pm.measurement with
  | none => (pm, some .attributeError)
  | some meas =>
    let (meas', err) := classificationLoop pm.cfg meas
    ({ pm with measurement := some meas' }, err)

/-- The bare routine as invoked on the manager state. -/
def runBare {R P : ℕ} (pm : PMState R P) : PMState R P × Option PyErr :=
  match pm.measurement with
  | none => (pm, some .attributeError)
  | some meas =>
    ({ pm with measurement := some (bareLoop pm.cfg meas) }, none)

/-! ## Concrete fixtures shared by several theorems -/

/-- A freshly acquired channel dict: raw heterodyned data only, no derived
keys yet. -/
def rawChannel (R P : ℕ) : ChannelData R P :=
  ⟨fun _ _ => (0, 0), fun _ _ => (0, 0),
   none, none, none, none, none, none, none, none, none, none⟩

/-- A one-channel batch whose heralding labels have already been classified
(all shots read ground state). -/
def measC2 : Measurement 1 1 :=
  [("R0", { rawChannel 1 1 with GMMpredicted_heralding := some fun _ _ => 0 })]

/-- A minimal valid per-resonator configuration (one readout level, identity
rotation, identity 1 x 1 correction matrix). -/
def cfg0 : ResCfg :=
  ⟨1, (1, 0), fun _ => (0, 0), fun _ => 1, Matrix.of fun _ _ => 1⟩

/-! ## Claims C8, C2, C4: `heralding_test` raises -/

/-- Claim C8: invoked on a measurement batch containing zero channels, the
Heralding Mask Builder (`heralding_test`) fails by raising an exception —
the `TypeError` from subscripting the `dict.keys()` view — rather than
silently returning an empty mask. -/
theorem C8_zero_channels_raises :
    heraldingTest ([] : Measurement 1 1) = .error PyErr.typeError := rfl

/-- Claim C2 (code bug): even on a well-formed nonempty batch whose channels
all carry classified heralding labels, `heralding_test` raises `TypeError`
at `resonators[0]` instead of returning the truncated mask whose every
column has exactly `n_pass_min` passing entries. -/
theorem C2_heralding_test_raises :
    heraldingTest measC2 = .error PyErr.typeError := rfl

/-- Claim C4: for every measurement batch, regardless of its number of
channels, `heralding_test` raises `TypeError` before constructing any mask
(it subscripts the `dict.keys()` view); consequently the heralding routine of
`process_data` aborts after its first loop and never stores `Mask_heralding`,
`PopulationNormalized_readout`, `PopulationCorrected_readout` or `to_fit` for
any channel. -/
theorem C4_heralding_typeerror {R P : ℕ} (pm : PMState R P) (m : Measurement R P)
    (meas : Measurement R P)
    (hcust : pm.customized = false) (hher : pm.heralding = true)
    (hmeas : pm.measurement = some meas)
    (hkeys : ∀ kv ∈ meas, kv.2.Mask_heralding = none ∧
      kv.2.PopulationNormalized_readout = none ∧
      kv.2.PopulationCorrected_readout = none ∧ kv.2.to_fit = none) :
    (∀ (R' P' : ℕ) (meas' : Measurement R' P'),
        heraldingTest meas' = .error PyErr.typeError) ∧
    (processData pm m ()).2 = some PyErr.typeError ∧
    ∃ meas'', (processData pm m ()).1.measurement = some meas'' ∧
      ∀ kv ∈ meas'', kv.2.Mask_heralding = none ∧
        kv.2.PopulationNormalized_readout = none ∧
        kv.2.PopulationCorrected_readout = none ∧ kv.2.to_fit = none := by
  refine ⟨fun R' P' meas' => rfl, ?_, ?_⟩
  · simp [processData, hcust, hher, hmeas, heraldingRoutine, heraldingTest,
      pyKeysViewSubscript, Bind.bind, Except.bind]
  · refine ⟨meas.map fun kv => (kv.1, heraldChannelStep pm.cfg kv.1 kv.2), ?_, ?_⟩
    · simp [processData, hcust, hher, hmeas, heraldingRoutine, heraldingTest,
        pyKeysViewSubscript, Bind.bind, Except.bind]
    · intro kv hkv
      obtain ⟨kv₀, hkv₀, rfl⟩ := List.mem_map.mp hkv
      have h := hkeys kv₀ hkv₀
      simpa [heraldChannelStep] using h

/-- The `ProcessManager` state of the C4 witness: heralding requested,
customized off, a one-channel batch assigned to `self.measurement`. -/
def pmC4 : PMState 1 1 := ⟨false, true, false, fun _ => cfg0, some measC2⟩

/-- Witness for `C4_heralding_typeerror` at a concrete one-channel state. -/
theorem C4_heralding_typeerror_witness :
    pmC4.customized = false ∧ pmC4.heralding = true ∧ pmC4.measurement = some measC2 ∧
    ((∀ (R' P' : ℕ) (meas' : Measurement R' P'),
        heraldingTest meas' = .error PyErr.typeError) ∧
      (processData pmC4 measC2 ()).2 = some PyErr.typeError ∧
      ∃ meas'', (processData pmC4 measC2 ()).1.measurement = some meas'' ∧
        ∀ kv ∈ meas'', kv.2.Mask_heralding = none ∧
          kv.2.PopulationNormalized_readout = none ∧
          kv.2.PopulationCorrected_readout = none ∧ kv.2.to_fit = none) :=
  ⟨rfl, rfl, rfl,
    C4_heralding_typeerror pmC4 measC2 measC2 rfl rfl rfl (by
      intro kv hkv
      simp only [measC2, List.mem_singleton] at hkv
      subst hkv
      exact ⟨rfl, rfl, rfl, rfl⟩)⟩

/-! ## Claim C5: routine dispatch -/

/-- Claim C5: on every invocation `process_data` selects exactly one of the
four routines by checking the configuration flags in the fixed priority order
customized > heralding > classification > bare: with `customized` set no other
routine runs regardless of the other flags; with it unset and `heralding` set
the heralding routine runs; with both unset and `classification` set the
classification routine runs; the bare routine runs exactly when all three
flags are unset. -/
theorem C5_routine_dispatch {R P : ℕ} {α : Type} (pm : PMState R P)
    (m : Measurement R P) (f : α) :
    (pm.customized = true →
      processData pm m f = runCustomized pm ∧ runCustomized pm = (pm, none)) ∧
    (pm.customized = false → pm.heralding = true →
      processData pm m f = runHeralding pm) ∧
    (pm.customized = false → pm.heralding = false → pm.classification = true →
      processData pm m f = runClassification pm) ∧
    (pm.customized = false → pm.heralding = false → pm.classification = false →
      processData pm m f = runBare pm) := by
  refine ⟨fun h1 => ?_, fun h1 h2 => ?_, fun h1 h2 h3 => ?_, fun h1 h2 h3 => ?_⟩
  · exact ⟨by simp [processData, runCustomized, h1], rfl⟩
  · simp [processData, runHeralding, h1, h2]
  · simp [processData, runClassification, h1, h2, h3]
  · simp [processData, runBare, h1, h2, h3]

/-- The state of the C5 witness: all three flags set at once; the customized
branch must win and return the state untouched without error. -/
def pmC5 : PMState 1 1 := ⟨true, true, true, fun _ => cfg0, none⟩

/-- Witness for `C5_routine_dispatch`: with every flag raised, the call is a
no-op, showing customized shadows heralding and classification. -/
theorem C5_routine_dispatch_witness :
    processData pmC5 ([] : Measurement 1 1) () = (pmC5, none) := by
  have h := (C5_routine_dispatch pmC5 ([] : Measurement 1 1) ()).1 rfl
  exact h.1.trans h.2

/-! ## Claim C9: the `measurement` parameter is dead -/

/-- Claim C9 (amended): the behaviour of `process_data` is completely
independent of the `measurement` (and `fitmodel`) arguments passed to it —
every routine reads and mutates only the pre-existing `self.measurement`
attribute — and when `self.measurement` was never assigned the call raises
`AttributeError` in the heralding, classification and bare branches; the
customized branch reads nothing and returns without error. -/
theorem C9_parameter_ignored {R P : ℕ} {α β : Type} (pm : PMState R P)
    (m₁ m₂ : Measurement R P) (f₁ : α) (f₂ : β) :
    processData pm m₁ f₁ = processData pm m₂ f₂ ∧
    (pm.measurement = none → pm.customized = false →
      (processData pm m₁ f₁).2 = some PyErr.attributeError) := by
  constructor
  · rfl
  · intro h1 h2
    cases hh : pm.heralding <;> cases hc : pm.classification <;>
      simp [processData, h1, h2, hh, hc]

/-- The state of the C9 fixtures: heralding flag set, `self.measurement`
never assigned. -/
def pmC9 : PMState 1 1 := ⟨false, true, false, fun _ => cfg0, none⟩

/-- The state of the C9 counterexample: customized set, `self.measurement`
never assigned. -/
def pmC9c : PMState 1 1 := ⟨true, false, false, fun _ => cfg0, none⟩

/-- Counterexample to claim C9 as stated: it asserts the call raises
`AttributeError` whenever `self.measurement` was never set, but with the
`customized` flag raised `process_data` returns without error despite the
attribute being unset, because the customized branch touches nothing. -/
theorem C9_counterexample :
    pmC9c.measurement = none ∧
    (processData pmC9c ([] : Measurement 1 1) ()).2 = none :=
  ⟨rfl, rfl⟩

/-- Witness for `C9_parameter_ignored` at concrete distinct arguments. -/
theorem C9_parameter_ignored_witness :
    processData pmC9 [("X", rawChannel 1 1)] () = processData pmC9 [] "ignored" ∧
    (processData pmC9 [("X", rawChannel 1 1)] ()).2 = some PyErr.attributeError :=
  ⟨(C9_parameter_ignored pmC9 [("X", rawChannel 1 1)] [] () "ignored").1,
   (C9_parameter_ignored pmC9 [("X", rawChannel 1 1)] [] () "ignored").2 rfl rfl⟩

/-! ## Claims C7 and C3: the correction step of the classification routine -/

lemma np_linalg_solve_ok {n P : ℕ} (A : Matrix (Fin n) (Fin n) ℚ)
    (B : Matrix (Fin n) (Fin P) ℚ) (h : A.det ≠ 0) :
    np_linalg_solve A B = .ok ((detExec A)⁻¹ • (adjExec A * B)) := by
  unfold np_linalg_solve
  rw [if_neg (by rw [detExec_eq_det]; exact h)]

lemma np_linalg_solve_err {n P : ℕ} (A : Matrix (Fin n) (Fin n) ℚ)
    (B : Matrix (Fin n) (Fin P) ℚ) (h : A.det = 0) :
    np_linalg_solve A B = .error PyErr.linAlgError := by
  unfold np_linalg_solve
  rw [if_pos (by rw [detExec_eq_det]; exact h)]

/-- When every channel's correction matrix is nonsingular, the classification
loop finishes without error and stores, for each channel, exactly the three
rotate/classify/normalize keys plus the corrected populations `X` (which solve
`corr_matrix * X = PopulationNormalized_readout`) and `to_fit := X`. -/
lemma classificationLoop_ok {R P : ℕ} (cfg : String → ResCfg) :
    ∀ meas : Measurement R P,
      (∀ kv ∈ meas, ((cfg kv.1).corr_matrix).det ≠ 0) →
      (classificationLoop cfg meas).2 = none ∧
      ∀ (k : ℕ) (r : String) (d : ChannelData R P), meas[k]? = some (r, d) →
        ∃ X : Matrix (Fin ((cfg r).n_readout_levels)) (Fin P) ℚ,
          (classificationLoop cfg meas).1[k]? = some (r,
            { classifyStored cfg r d with
              PopulationCorrected_readout := some (matRows X),
              to_fit := some (ToFit.pop (matRows X)) }) ∧
          ((cfg r).corr_matrix) * X = classifyPops cfg r d := by
  intro meas
  induction meas with
  | nil =>
    intro _
    refine ⟨rfl, ?_⟩
    intro k r d hk
    simp at hk
  | cons hd tl ih =>
    intro h
    obtain ⟨r, d⟩ := hd
    have hdet : ((cfg r).corr_matrix).det ≠ 0 := h (r, d) (List.mem_cons_self _ _)
    have hok := np_linalg_solve_ok ((cfg r).corr_matrix) (classifyPops cfg r d) hdet
    have ihh := ih fun kv hkv => h kv (List.mem_cons_of_mem _ hkv)
    constructor
    · simp only [classificationLoop, hok]
      exact ihh.1
    · intro k r' d' hk
      cases k with
      | zero =>
        rw [List.getElem?_cons_zero] at hk
        injection hk with hk
        obtain ⟨rfl, rfl⟩ : r = r' ∧ d = d' :=
          ⟨congrArg Prod.fst hk, congrArg Prod.snd hk⟩
        refine ⟨(detExec ((cfg r).corr_matrix))⁻¹ •
          (adjExec ((cfg r).corr_matrix) * classifyPops cfg r d), ?_, ?_⟩
        · simp only [classificationLoop, hok, List.getElem?_cons_zero]
        · exact np_linalg_solve_sound hok
      | succ k =>
        rw [List.getElem?_cons_succ] at hk
        obtain ⟨X, hget, hsol⟩ := ihh.2 k r' d' hk
        refine ⟨X, ?_, hsol⟩
        simp only [classificationLoop, hok, List.getElem?_cons_succ]
        exact hget

/-- When the channel at position `k` has a singular correction matrix and
every earlier channel a nonsingular one, the classification loop aborts with
`LinAlgError` at that channel, whose dict keeps only the pre-solve stores
(`classifyStored`, which leaves `to_fit` and `PopulationCorrected_readout`
untouched). -/
lemma classificationLoop_err {R P : ℕ} (cfg : String → ResCfg) :
    ∀ (meas : Measurement R P) (k : ℕ) (r : String) (d : ChannelData R P),
      meas[k]? = some (r, d) →
      ((cfg r).corr_matrix).det = 0 →
      (∀ j, j < k → ∀ (r' : String) (d' : ChannelData R P),
        meas[j]? = some (r', d') → ((cfg r').corr_matrix).det ≠ 0) →
      (classificationLoop cfg meas).2 = some PyErr.linAlgError ∧
      (classificationLoop cfg meas).1[k]? = some (r, classifyStored cfg r d) := by
  intro meas
  induction meas with
  | nil =>
    intro k r d hk
    simp at hk
  | cons hd tl ih =>
    intro k r d hk hsing hbefore
    obtain ⟨r₀, d₀⟩ := hd
    cases k with
    | zero =>
      rw [List.getElem?_cons_zero] at hk
      injection hk with hk
      obtain ⟨rfl, rfl⟩ : r = r₀ ∧ d = d₀ :=
        ⟨(congrArg Prod.fst hk).symm, (congrArg Prod.snd hk).symm⟩
      have herr := np_linalg_solve_err ((cfg r).corr_matrix) (classifyPops cfg r d) hsing
      constructor
      · simp only [classificationLoop, herr]
      · simp only [classificationLoop, herr, List.getElem?_cons_zero]
    | succ k =>
      rw [List.getElem?_cons_succ] at hk
      have hdet0 : ((cfg r₀).corr_matrix).det ≠ 0 :=
        hbefore 0 (Nat.succ_pos k) r₀ d₀ (List.getElem?_cons_zero)
      have hok := np_linalg_solve_ok ((cfg r₀).corr_matrix) (classifyPops cfg r₀ d₀) hdet0
      have hbefore' : ∀ j, j < k → ∀ (r' : String) (d' : ChannelData R P),
          tl[j]? = some (r', d') → ((cfg r').corr_matrix).det ≠ 0 := by
        intro j hj r' d' hget
        exact hbefore (j+1) (Nat.succ_lt_succ hj) r' d'
          (by rw [List.getElem?_cons_succ]; exact hget)
      obtain ⟨h1, h2⟩ := ih k r d hk hsing hbefore'
      constructor
      · simp only [classificationLoop, hok]
        exact h1
      · simp only [classificationLoop, hok, List.getElem?_cons_succ]
        exact h2

/-- Claim C7: when a channel's `corr_matrix` is singular, the correction
step's `np.linalg.solve` raises `LinAlgError`, which propagates out of
`process_data` unmasked (no pseudo-inverse fallback exists in the code), and
the channel that errored ends without `to_fit` (and without
`PopulationCorrected_readout`). -/
theorem C7_singular_matrix_aborts {R P : ℕ} (pm : PMState R P) (m : Measurement R P)
    (meas : Measurement R P) (k : ℕ) (r : String) (d : ChannelData R P)
    (hcust : pm.customized = false) (hher : pm.heralding = false)
    (hcls : pm.classification = true) (hmeas : pm.measurement = some meas)
    (hk : meas[k]? = some (r, d))
    (hsing : ((pm.cfg r).corr_matrix).det = 0)
    (hfirst : ∀ j, j < k → ∀ (r' : String) (d' : ChannelData R P),
      meas[j]? = some (r', d') → ((pm.cfg r').corr_matrix).det ≠ 0)
    (hto : d.to_fit = none) (hpc : d.PopulationCorrected_readout = none) :
    (processData pm m ()).2 = some PyErr.linAlgError ∧
    ∃ meas', (processData pm m ()).1.measurement = some meas' ∧
      ∃ d', meas'[k]? = some (r, d') ∧
        d'.to_fit = none ∧ d'.PopulationCorrected_readout = none := by
  obtain ⟨h1, h2⟩ := classificationLoop_err pm.cfg meas k r d hk hsing hfirst
  constructor
  · simp only [processData, hcust, hher, hcls, hmeas]
    simpa using h1
  · refine ⟨(classificationLoop pm.cfg meas).1, ?_, classifyStored pm.cfg r d, h2, ?_, ?_⟩
    · simp only [processData, hcust, hher, hcls, hmeas]
      simp
    · simpa [classifyStored] using hto
    · simpa [classifyStored] using hpc

/-- The configuration of the C7 witness: two readout levels and the singular
all-ones correction matrix of spec scenario C. -/
def cfgSing : ResCfg :=
  ⟨2, (1, 0), fun k => ((k : ℚ), (k : ℚ)), fun _ => 1, Matrix.of fun _ _ => 1⟩

/-- The one-channel batch of the C7 witness. -/
def measC7 : Measurement 2 1 := [("R0", rawChannel 2 1)]

/-- The manager state of the C7 witness: classification routine requested,
all-ones correction matrix. -/
def pmC7 : PMState 2 1 := ⟨false, false, true, fun _ => cfgSing, some measC7⟩

/-- Witness for `C7_singular_matrix_aborts`: the all-ones matrix is singular,
the batch aborts with `LinAlgError`, and the errored channel has no
`to_fit`. -/
theorem C7_singular_matrix_aborts_witness :
    (cfgSing.corr_matrix).det = 0 ∧
    ((processData pmC7 measC7 ()).2 = some PyErr.linAlgError ∧
      ∃ meas', (processData pmC7 measC7 ()).1.measurement = some meas' ∧
        ∃ d', meas'[0]? = some ("R0", d') ∧
          d'.to_fit = none ∧ d'.PopulationCorrected_readout = none) := by
  have hdet : (cfgSing.corr_matrix).det = 0 := by
    rw [← detExec_eq_det]
    with_unfolding_all decide
  refine ⟨hdet, ?_⟩
  exact C7_singular_matrix_aborts pmC7 measC7 measC7 0 "R0" (rawChannel 2 1)
    rfl rfl rfl rfl rfl hdet
    (fun j hj => absurd hj (Nat.not_lt_zero j)) rfl rfl

/-- Claim C3 (amended): in the classification routine (the heralding routine
never reaches its correction step, aborting beforehand in `heralding_test`),
each channel's stored `PopulationCorrected_readout` — and hence `to_fit`,
which receives the very same object — is the solution `X` of the linear
system `corr_matrix * X = PopulationNormalized_readout` (the matrix itself,
not its transpose), with no clamping to [0,1] and no renormalization. -/
theorem C3_correction_solves_untransposed {R P : ℕ} (pm : PMState R P)
    (m : Measurement R P) (meas : Measurement R P)
    (hcust : pm.customized = false) (hher : pm.heralding = false)
    (hcls : pm.classification = true) (hmeas : pm.measurement = some meas)
    (hns : ∀ kv ∈ meas, ((pm.cfg kv.1).corr_matrix).det ≠ 0) :
    (processData pm m ()).2 = none ∧
    ∃ meas', (processData pm m ()).1.measurement = some meas' ∧
      ∀ (k : ℕ) (r : String) (d : ChannelData R P), meas[k]? = some (r, d) →
        ∃ X : Matrix (Fin ((pm.cfg r).n_readout_levels)) (Fin P) ℚ,
          meas'[k]? = some (r,
            { classifyStored pm.cfg r d with
              PopulationCorrected_readout := some (matRows X),
              to_fit := some (ToFit.pop (matRows X)) }) ∧
          ((pm.cfg r).corr_matrix) * X = classifyPops pm.cfg r d := by
  obtain ⟨h1, h2⟩ := classificationLoop_ok pm.cfg meas hns
  constructor
  · simp only [processData, hcust, hher, hcls, hmeas]
    simpa using h1
  · refine ⟨(classificationLoop pm.cfg meas).1, ?_, h2⟩
    simp only [processData, hcust, hher, hcls, hmeas]
    simp

/-- The non-symmetric row-stochastic correction matrix of the C3 fixtures. -/
def corrC3 : Matrix (Fin 2) (Fin 2) ℚ := Matrix.of ![![9/10, 1/10], ![2/10, 8/10]]

/-- The configuration of the C3 fixtures: two levels, identity rotation,
means at (0,0) and (1,1), and the correction matrix `corrC3`. -/
def cfgC3 : ResCfg :=
  ⟨2, (1, 0), fun k => ((k : ℚ), (k : ℚ)), fun _ => 1, corrC3⟩

/-- The one-channel batch of the C3 fixtures: two shots at one sweep point,
one on each cluster mean, so the normalized populations are [1/2, 1/2]. -/
def measC3 : Measurement 2 1 :=
  [("R0", { rawChannel 2 1 with
    Heterodyned_readout := fun r _ => ((r.val : ℚ), (r.val : ℚ)) })]

/-- The manager state of the C3 fixtures: classification routine requested. -/
def pmC3 : PMState 2 1 := ⟨false, false, true, fun _ => cfgC3, some measC3⟩

/-- The population column [1/2, 1/2] produced by the C3 fixture batch. -/
def popC3 : Matrix (Fin 2) (Fin 1) ℚ := Matrix.of ![![1/2], ![1/2]]

/-- Witness for `C3_correction_solves_untransposed` at the concrete
classification batch. -/
theorem C3_correction_solves_untransposed_witness :
    (∀ kv ∈ measC3, ((pmC3.cfg kv.1).corr_matrix).det ≠ 0) ∧
    ((processData pmC3 measC3 ()).2 = none ∧
      ∃ meas', (processData pmC3 measC3 ()).1.measurement = some meas' ∧
        ∀ (k : ℕ) (r : String) (d : ChannelData 2 1), measC3[k]? = some (r, d) →
          ∃ X : Matrix (Fin ((pmC3.cfg r).n_readout_levels)) (Fin 1) ℚ,
            meas'[k]? = some (r,
              { classifyStored pmC3.cfg r d with
                PopulationCorrected_readout := some (matRows X),
                to_fit := some (ToFit.pop (matRows X)) }) ∧
            ((pmC3.cfg r).corr_matrix) * X = classifyPops pmC3.cfg r d) := by
  have hns : ∀ kv ∈ measC3, ((pmC3.cfg kv.1).corr_matrix).det ≠ 0 := by
    intro kv _
    show (cfgC3.corr_matrix).det ≠ 0
    rw [← detExec_eq_det]
    with_unfolding_all decide
  exact ⟨hns, C3_correction_solves_untransposed pmC3 measC3 measC3 rfl rfl rfl rfl hns⟩

/-- Counterexample to claim C3 as stated: on the concrete classification
batch the stored corrected populations (and `to_fit`) equal [1/2, 1/2], which
solves `corr_matrix * X = PopulationNormalized_readout` but does not solve the
transposed system — `corr_matrix^T * X` differs from the stored normalized
populations — refuting that the dense solve is performed against the
transpose of `corr_matrix`. -/
theorem C3_transpose_counterexample :
    (((processData pmC3 measC3 ()).1.measurement.getD []).getD 0
        ("", rawChannel 2 1)).2.PopulationNormalized_readout = some (matRows popC3) ∧
    (((processData pmC3 measC3 ()).1.measurement.getD []).getD 0
        ("", rawChannel 2 1)).2.to_fit = some (ToFit.pop (matRows popC3)) ∧
    corrC3 * popC3 = popC3 ∧
    Matrix.transpose corrC3 * popC3 ≠ popC3 := by
  with_unfolding_all decide

/-! ## Claim C6: `ProcessManager.check_IQ_matrices` (lines 37-55)

`check_IQ_matrices` measures `len()` of the raw yaml lists, so this section
views a resonator's `process.yaml` entries as plain lists. -/

/-- The list-typed yaml view of one resonator's process entries, as
`check_IQ_matrices` reads them.  `n_readout_levels` may be stale on entry; the
method re-derives it from `readout_levels` first. -/
structure ProcRes where
  readout_levels : List ℤ
  IQ_means : List (List ℚ)
  IQ_covariances : List ℚ
  corr_matrix : List (List ℚ)
  n_readout_levels : ℕ
  deriving DecidableEq

/-- Embeds `np.identity(n).tolist()`. -/
def identityList (n : ℕ) : List (List ℚ) :=
  (List.range n).map fun i => (List.range n).map fun j => if i = j then 1 else 0

/-- Embeds the body of `check_IQ_matrices` for one resonator (lines 44-55):
set `n_readout_levels := len(readout_levels)`; assert that it equals the
lengths of `IQ_means`, `IQ_covariances` and `corr_matrix`; on
`AssertionError`, print a warning (the returned Bool) and regenerate default
matrices — identity `corr_matrix`, unit `IQ_covariances`, evenly spaced
`IQ_means` `[i, i]` — without saving (the source saves nothing either; it only
prints a reminder to call `cfg.save()`). -/
def checkIQChannel (v : ProcRes) : ProcRes × Bool :=
  let v1 := { v with n_readout_levels := v.readout_levels.length }
  if v1.n_readout_levels = v1.IQ_means.length ∧
      v1.IQ_means.length = v1.IQ_covariances.length ∧
      v1.IQ_covariances.length = v1.corr_matrix.length then
    (v1, false)
  else
    ({ v1 with
        corr_matrix := identityList v1.n_readout_levels,
        IQ_covariances := (List.range v1.n_readout_levels).map fun _ => 1,
        IQ_means := (List.range v1.n_readout_levels).map fun i : ℕ => [(i : ℚ), (i : ℚ)] },
     true)

/-- Embeds the `for r in self['resonators']` loop of `check_IQ_matrices`:
every resonator channel is checked (and possibly repaired) in place. -/
def check_IQ_matrices (l : List (String × ProcRes)) : List (String × ProcRes) :=
  l.map fun rv => (rv.1, (checkIQChannel rv.2).1)

lemma identityList_length (n : ℕ) : (identityList n).length = n := by
  simp [identityList]

/-- Claim C6: for every resonator channel whose `n_readout_levels` (the length
of `readout_levels`) differs from the common length of `IQ_means`,
`IQ_covariances` and `corr_matrix`, `check_IQ_matrices` does not raise: it
replaces `corr_matrix` with the identity, `IQ_covariances` with unit
variances and `IQ_means` with the points `[i, i]`, re-establishing the length
invariant, and emits a warning (it never saves — the embedding, like the
source, contains no save call); a channel already satisfying the invariant
keeps its lists unchanged. -/
theorem C6_shape_check_regenerates (l : List (String × ProcRes)) (k : ℕ)
    (r : String) (v : ProcRes) (hk : l[k]? = some (r, v))
    (hc1 : v.IQ_means.length = v.IQ_covariances.length)
    (hc2 : v.IQ_covariances.length = v.corr_matrix.length) :
    (check_IQ_matrices l)[k]? = some (r, (checkIQChannel v).1) ∧
    (v.readout_levels.length ≠ v.IQ_means.length →
      (checkIQChannel v).2 = true ∧
      (checkIQChannel v).1 = { v with
        n_readout_levels := v.readout_levels.length,
        corr_matrix := identityList v.readout_levels.length,
        IQ_covariances := (List.range v.readout_levels.length).map fun _ => 1,
        IQ_means := (List.range v.readout_levels.length).map fun i : ℕ => [(i : ℚ), (i : ℚ)] } ∧
      ((checkIQChannel v).1.n_readout_levels = (checkIQChannel v).1.IQ_means.length ∧
        (checkIQChannel v).1.IQ_means.length = (checkIQChannel v).1.IQ_covariances.length ∧
        (checkIQChannel v).1.IQ_covariances.length = (checkIQChannel v).1.corr_matrix.length)) ∧
    (v.readout_levels.length = v.IQ_means.length →
      (checkIQChannel v).2 = false ∧
      (checkIQChannel v).1 = { v with n_readout_levels := v.readout_levels.length }) := by
  refine ⟨?_, fun hne => ?_, fun heq => ?_⟩
  · rw [check_IQ_matrices, List.getElem?_map, hk]
    rfl
  · have hcond : ¬ (v.readout_levels.length = v.IQ_means.length ∧
        v.IQ_means.length = v.IQ_covariances.length ∧
        v.IQ_covariances.length = v.corr_matrix.length) := by
      intro hcond
      exact hne hcond.1
    refine ⟨?_, ?_, ?_⟩
    · simp only [checkIQChannel, if_neg hcond]
    · simp only [checkIQChannel, if_neg hcond]
    · simp only [checkIQChannel, if_neg hcond]
      refine ⟨?_, ?_, ?_⟩
      · rw [List.length_map, List.length_range]
      · rw [List.length_map, List.length_map]
      · rw [List.length_map, List.length_range, identityList_length]
  · have hcond : v.readout_levels.length = v.IQ_means.length ∧
        v.IQ_means.length = v.IQ_covariances.length ∧
        v.IQ_covariances.length = v.corr_matrix.length := ⟨heq, hc1, hc2⟩
    exact ⟨by simp only [checkIQChannel, if_pos hcond],
      by simp only [checkIQChannel, if_pos hcond]⟩

/-- The channel of the C6 witness: three readout levels but 1 x 1 matrices. -/
def vC6 : ProcRes := ⟨[0, 1, 2], [[0, 0]], [1], [[1]], 0⟩

/-- Witness for `C6_shape_check_regenerates` at a concrete mismatched
channel. -/
theorem C6_shape_check_regenerates_witness :
    ([("R0", vC6)] : List (String × ProcRes))[0]? = some ("R0", vC6) ∧
    vC6.IQ_means.length = vC6.IQ_covariances.length ∧
    vC6.IQ_covariances.length = vC6.corr_matrix.length ∧
    vC6.readout_levels.length ≠ vC6.IQ_means.length ∧
    ((check_IQ_matrices [("R0", vC6)])[0]? = some ("R0", (checkIQChannel vC6).1) ∧
      ((checkIQChannel vC6).2 = true ∧
        (checkIQChannel vC6).1 = { vC6 with
          n_readout_levels := vC6.readout_levels.length,
          corr_matrix := identityList vC6.readout_levels.length,
          IQ_covariances := (List.range vC6.readout_levels.length).map fun _ => 1,
          IQ_means := (List.range vC6.readout_levels.length).map fun i : ℕ => [(i : ℚ), (i : ℚ)] } ∧
        ((checkIQChannel vC6).1.n_readout_levels = (checkIQChannel vC6).1.IQ_means.length ∧
          (checkIQChannel vC6).1.IQ_means.length = (checkIQChannel vC6).1.IQ_covariances.length ∧
          (checkIQChannel vC6).1.IQ_covariances.length = (checkIQChannel vC6).1.corr_matrix.length))) := by
  refine ⟨rfl, rfl, rfl, by decide, ?_, ?_⟩
  · exact (C6_shape_check_regenerates [("R0", vC6)] 0 "R0" vC6 rfl rfl rfl).1
  · exact (C6_shape_check_regenerates [("R0", vC6)] 0 "R0" vC6 rfl rfl rfl).2.1 (by decide)

/-! ## Claim C10: `VariableManager.set_parameters`, resonator loop (lines 60-69) -/

/-- The `variables.yaml` view of one resonator, as the resonator loop of
`set_parameters` reads it.  The derived keys start absent; `set` stores
them. -/
structure ResVar where
  freq : ℚ
  resonator_LO : ℚ
  readout_levels : List ℤ
  mod_freq : Option ℚ
  lowest_readout_levels : Option ℤ
  highest_readout_levels : Option ℤ
  n_readout_levels : Option ℕ
  deriving DecidableEq

/-- Embeds the body of the resonator loop of `set_parameters` (lines 60-69)
for one channel: store `mod_freq := freq - resonator_LO`, replace
`readout_levels` by `sorted(readout_levels)` (Python's `sorted` is a stable
ascending sort, modelled by insertion sort), then store its first element,
its last element (`[0]`/`[-1]` raise `IndexError` on an empty list) and its
length. -/
def setParamsChannel (v : ResVar) : Except PyErr ResVar :=
  let v1 := { v with mod_freq := some (v.freq - v.resonator_LO) }
  match List.insertionSort (· ≤ ·) v1.readout_levels with
  | [] => .error .indexError
  | x :: xs =>
    .ok { v1 with
      readout_levels := x :: xs,
      lowest_readout_levels := some x,
      highest_readout_levels := some ((x :: xs).getLast (List.cons_ne_nil x xs)),
      n_readout_levels := some (x :: xs).length }

/-- Embeds the `for r in self['resonators']` loop of `set_parameters`: the
channels are processed in order, an exception aborting the whole `load()`. -/
def set_parameters_resonators : List (String × ResVar) → Except PyErr (List (String × ResVar))
  | [] => .ok []
  | (r, v) :: rest =>
    match setParamsChannel v with
    | .error e => .error e
    | .ok v' =>
      match set_parameters_resonators rest with
      | .error e => .error e
      | .ok rest' => .ok ((r, v') :: rest')

lemma setParamsChannel_ok (v v' : ResVar) (h : setParamsChannel v = .ok v') :
    List.Sorted (· ≤ ·) v'.readout_levels ∧
    v'.lowest_readout_levels = v'.readout_levels.head? ∧
    v'.highest_readout_levels = v'.readout_levels.getLast? ∧
    v'.n_readout_levels = some v'.readout_levels.length := by
  simp only [setParamsChannel] at h
  split at h
  · exact absurd h (by simp)
  · rename_i x xs hsorted
    injection h with h
    subst h
    have hs : List.Sorted (· ≤ ·) (x :: xs) := by
      rw [← hsorted]
      exact List.sorted_insertionSort _ _
    refine ⟨by simpa using hs, rfl, ?_, rfl⟩
    simp [List.getLast?_eq_getLast]

/-- Claim C10: after `load()` completes (so after the resonator loop of
`set_parameters` returned without exception), every resonator channel has
`readout_levels` sorted ascending, `lowest_readout_levels` equal to its first
element, `highest_readout_levels` equal to its last element, and
`n_readout_levels` equal to its length.  (The qubit loop and the later LO
checks never touch these keys.) -/
theorem C10_readout_levels_invariants (l l' : List (String × ResVar))
    (h : set_parameters_resonators l = .ok l') :
    ∀ kv ∈ l', List.Sorted (· ≤ ·) kv.2.readout_levels ∧
      kv.2.lowest_readout_levels = kv.2.readout_levels.head? ∧
      kv.2.highest_readout_levels = kv.2.readout_levels.getLast? ∧
      kv.2.n_readout_levels = some kv.2.readout_levels.length := by
  induction l generalizing l' with
  | nil =>
    unfold set_parameters_resonators at h
    injection h with h
    subst h
    intro kv hkv
    simp at hkv
  | cons hd tl ih =>
    obtain ⟨r, v⟩ := hd
    unfold set_parameters_resonators at h
    split at h
    · exact absurd h (by simp)
    · rename_i v' hv'
      split at h
      · exact absurd h (by simp)
      · rename_i rest' hrest
        injection h with h
        subst h
        intro kv hkv
        rcases List.mem_cons.mp hkv with hkv | hkv
        · subst hkv
          exact setParamsChannel_ok v v' hv'
        · exact ih rest' hrest kv hkv

/-- The input of the C10 witness: one resonator with unsorted levels. -/
def vC10 : ResVar := ⟨5, 1, [2, 0, 1], none, none, none, none⟩

/-- The expected output channel of the C10 witness. -/
def vC10fin : ResVar := ⟨5, 1, [0, 1, 2], some 4, some 0, some 2, some 3⟩

/-- Witness for `C10_readout_levels_invariants` at a concrete channel. -/
theorem C10_readout_levels_invariants_witness :
    set_parameters_resonators [("R0", vC10)] = .ok [("R0", vC10fin)] ∧
    (∀ kv ∈ ([("R0", vC10fin)] : List (String × ResVar)),
      List.Sorted (· ≤ ·) kv.2.readout_levels ∧
      kv.2.lowest_readout_levels = kv.2.readout_levels.head? ∧
      kv.2.highest_readout_levels = kv.2.readout_levels.getLast? ∧
      kv.2.n_readout_levels = some kv.2.readout_levels.length) := by
  have h : set_parameters_resonators [("R0", vC10)] = .ok [("R0", vC10fin)] := by
    with_unfolding_all rfl
  exact ⟨h, C10_readout_levels_invariants [("R0", vC10)] [("R0", vC10fin)] h⟩

end Qtrlb
